import Mathlib

/-!
Verification of the retry/resilience core of `electron-playwright-helpers`
(`src/utilities.ts`): the error classifier (`errToString` and the
error-match test inside `retry`), the retry engine (`retry`), the
poll-until-truthy engine (`retryUntilTruthy`), and the process-global
configuration accessors (`setRetryOptions` / `getRetryOptions` /
`resetRetryOptions`).

The JavaScript code is shallowly embedded. Thrown values and operation
results are modelled by an explicit `JsValue` type; the host function
`JSON.stringify` is modelled by `jsonStringify` over that type (cyclic
object graphs are flagged, since they cannot be built inductively).
Wall-clock time is made deterministic: every invocation of the wrapped
operation takes a caller-supplied duration, and every poll wait advances
the clock by exactly the poll delay. Loops are given explicit fuel and
return `none` when the fuel runs out, so that every function is total and
executable.
-/

set_option autoImplicit false

namespace EPH

mutual

/-- Model of a JavaScript runtime value, as far as the retry core can
observe one: native `Error` objects (with a `name` and a `message`),
strings, numbers, booleans, `null`, `undefined`, functions, and plain
objects. An object carries a `cyclic` flag marking object graphs with a
back-reference (which an inductive type cannot represent directly);
`JSON.stringify` throws a `TypeError` on exactly those. -/
inductive JsValue : Type where
  | errObj (name msg : String)
  | str (s : String)
  | num (n : Int)
  | boolVal (b : Bool)
  | nullVal
  | undef
  | fnVal
  | obj (cyclic : Bool) (fields : JsFields)

/-- Field list of a plain JavaScript object (key/value pairs, in
enumeration order). -/
inductive JsFields : Type where
  | nil
  | cons (key : String) (v : JsValue) (rest : JsFields)

end

/-- Truthiness of a JavaScript value (`NaN` is not modelled). -/
def truthy : JsValue → Bool
  | .errObj _ _ => true
  | .str s => !(s == "")
  | .num n => !(n == 0)
  | .boolVal b => b
  | .nullVal => false
  | .undef => false
  | .fnVal => true
  | .obj _ _ => true

/-- JSON string escaping for quote and backslash (the characters the
claims can exercise). -/
def jsonEscapeChar (c : Char) : String :=
  if c = '"' then "\\\"" else if c = '\\' then "\\\\" else String.singleton c

/-- A JSON string literal: the escaped text between double quotes. -/
def jsonQuote (s : String) : String :=
  "\"" ++ String.join (s.toList.map jsonEscapeChar) ++ "\""

/-- The `TypeError` thrown by `JSON.stringify` on a cyclic value. -/
def circularJsonTypeError : JsValue :=
  JsValue.errObj "TypeError" "Converting circular structure to JSON"

/-- The `TypeError` thrown by `undefined.toLowerCase()`. -/
def undefinedToLowerTypeError : JsValue :=
  JsValue.errObj "TypeError"
    "Cannot read properties of undefined (reading \x27toLowerCase\x27)"

mutual

/-- Model of the host `JSON.stringify`: `Except.error e` models a thrown
exception `e`, `Except.ok none` models the return value `undefined`
(produced for `undefined`, functions, and symbols), `Except.ok (some s)`
models the returned string `s`. An `Error` instance has no enumerable own
properties, so it serialises to `"\x7b\x7d"`; a cyclic object graph makes
`JSON.stringify` throw a `TypeError`. -/
def jsonStringify : JsValue → Except JsValue (Option String)
  | .errObj _ _ => .ok (some "\x7b\x7d")
  | .str s => .ok (some (jsonQuote s))
  | .num n => .ok (some (toString n))
  | .boolVal b => .ok (some (cond b "true" "false"))
  | .nullVal => .ok (some "null")
  | .undef => .ok none
  | .fnVal => .ok none
  | .obj true _ => .error circularJsonTypeError
  | .obj false fields =>
    match jsonFieldParts fields with
    | .error e => .error e
    | .ok parts => .ok (some ("\x7b" ++ String.intercalate "," parts ++ "\x7d"))

/-- Serialise the fields of a (non-cyclic) object; fields whose value
serialises to `undefined` are skipped, as `JSON.stringify` does. -/
def jsonFieldParts : JsFields → Except JsValue (List String)
  | .nil => .ok []
  | .cons k v rest =>
    match jsonStringify v with
    | .error e => .error e
    | .ok r =>
      match jsonFieldParts rest with
      | .error e => .error e
      | .ok rs =>
        match r with
        | none => .ok rs
        | some s => .ok ((jsonQuote k ++ ":" ++ s) :: rs)

end

/-- `Error.prototype.toString`: `name` when the message is empty,
`message` when the name is empty, otherwise `name ++ ": " ++ message`. -/
def errorToString (name msg : String) : String :=
  if name = "" then msg
  else if msg = "" then name
  else name ++ ": " ++ msg

/-- Embedding of `errToString` (src/utilities.ts:495-503): an `Error`
renders via its `toString`, a string is returned as-is, and anything else
goes through `JSON.stringify` — whose exception or `undefined` result
propagates to the caller of `errToString`. -/
def errToString (err : JsValue) : Except JsValue (Option String) :=
  match err with
  | .errObj name msg => .ok (some (errorToString name msg))
  | .str s => .ok (some s)
  | e => jsonStringify e

/-- An `errorMatch` specification: a single string, an array of strings,
or a regular expression. A regular expression is modelled abstractly by
its `test` function on strings. -/
inductive ErrorMatch : Type where
  | str (pat : String)
  | list (pats : List String)
  | regex (test : String → Bool)

/-- `pat` occurs as a contiguous run inside `s`, decided by structural
recursion (so that the kernel can evaluate it). -/
def listIsInfix (pat : List Char) : List Char → Bool
  | [] => pat.isEmpty
  | b :: bs => List.isPrefixOf pat (b :: bs) || listIsInfix pat bs

/-- `hay` contains `pat` as a substring (JavaScript `String.includes`). -/
def containsStr (hay pat : String) : Bool :=
  listIsInfix pat.data hay.data

/-- JavaScript `String.toLowerCase`, on the ASCII alphabet
(character-wise lower-casing of the text). -/
def toLowerStr (s : String) : String :=
  ⟨s.data.map Char.toLower⟩

/-- The non-matching-error condition from the body of `retry`
(src/utilities.ts:295-303), specialised by the kind of the effective
`errorMatch`: true means the thrown error does NOT match and `retry`
rethrows it immediately. -/
def mismatch (em : ErrorMatch) (errString : String) : Bool :=
  match em with
  | .str pat => !(containsStr (toLowerStr errString) (toLowerStr pat))
  | .regex t => !(t errString)
  | .list pats => !(pats.any fun pat => containsStr (toLowerStr errString) (toLowerStr pat))

/-- Evaluation of `const errString = errToString(err)` followed by the
non-matching-error condition, with host exceptions made explicit:
`errToString` itself may throw (cyclic thrown value), and when it returns
`undefined`, `errString.toLowerCase()` throws a `TypeError` in the string
and non-empty-array branches while `RegExp.test` coerces `undefined` to
the string `"undefined"`. `Except.ok b` means the condition evaluated to
`b`. -/
def classifyMismatch (em : ErrorMatch) (err : JsValue) : Except JsValue Bool :=
  match errToString err with
  | .error e => .error e
  | .ok (some s) => .ok (mismatch em s)
  | .ok none =>
    match em with
    | .str _ => .error undefinedToLowerTypeError
    | .regex t => .ok (!(t "undefined"))
    | .list pats => if pats.isEmpty then .ok true else .error undefinedToLowerTypeError

/-- The `poll` option: a delay in milliseconds or the `"raf"` sentinel. -/
inductive PollSpec : Type where
  | ms (n : Nat)
  | raf

/-- Effective wait of one poll step. In the Node test environment there is
no `window.requestAnimationFrame`, so the `"raf"` sentinel falls back to a
fixed 20 ms delay (src/utilities.ts:315-325). -/
def pollWait : PollSpec → Nat
  | .ms n => n
  | .raf => 20

/-- The `RetryOptions` record (src/utilities.ts:210-223). -/
structure RetryOptions : Type where
  timeout : Int
  poll : PollSpec
  errorMatch : ErrorMatch
  disable : Bool

/-- A per-call `Partial<RetryOptions>`: `none` models an absent field. -/
structure PartialRetryOptions : Type where
  timeout : Option Int := none
  poll : Option PollSpec := none
  errorMatch : Option ErrorMatch := none
  disable : Option Bool := none

/-- The object spread `{ ...base, ...o }`: fields present in `o` win. -/
def mergeOptions (base : RetryOptions) (o : PartialRetryOptions) : RetryOptions :=
  { timeout := o.timeout.getD base.timeout
    poll := o.poll.getD base.poll
    errorMatch := o.errorMatch.getD base.errorMatch
    disable := o.disable.getD base.disable }

/-- Behaviour of one invocation of the wrapped operation: it resolves
with a value or throws. -/
inductive FnStep (α : Type) : Type where
  | ok (v : α)
  | thrown (e : JsValue)

/-- How a call to `retry` settles: resolves with a value, resolves with
`undefined` (the disabled-suppression path, src/utilities.ts:308-312), or
rejects with a thrown value. -/
inductive RetryOutcome (α : Type) : Type where
  | resolved (v : α)
  | resolvedUndef
  | rejected (e : JsValue)

/-- Result of a terminated `retry` run: the outcome, how many times the
operation was invoked, and `Date.now() - startTime` at settlement. -/
structure RetryResult (α : Type) : Type where
  outcome : RetryOutcome α
  calls : Nat
  elapsed : Nat

/-- An `Error` object with the default name `"Error"`. -/
def mkError (msg : String) : JsValue := JsValue.errObj "Error" msg

/-- `shouldContinue` (src/utilities.ts:275-285). `disableOpt` is
`options.disable` as the code reads it — the RAW per-call field, not the
merged configuration value. -/
def shouldCont (disableOpt : Bool) (timeout : Int) (tries : Nat) (elapsed : Nat) : Bool :=
  if tries < 1 then true
  else if disableOpt then false
  else decide ((elapsed : Int) < timeout)

/-- The final `throw new Error(...)` of `retry` (src/utilities.ts:328-329):
the message carries the effective timeout and, when `lastErr` is truthy,
`\x27 Last throw: \x27 + errToString(lastErr)` — where `errToString` may
itself throw (that exception propagates instead) or return `undefined`
(which string concatenation coerces to `"undefined"`). -/
def timeoutReject {α : Type} (timeout : Int) (lastErr : Option JsValue) : RetryOutcome α :=
  match lastErr with
  | some e =>
    if truthy e then
      match errToString e with
      | .error h => .rejected h
      | .ok none =>
        .rejected (mkError ("retry()::Timeout after " ++ toString timeout ++ "ms. Last throw: undefined"))
      | .ok (some s) =>
        .rejected (mkError ("retry()::Timeout after " ++ toString timeout ++ "ms. Last throw: " ++ s))
    else
      .rejected (mkError ("retry()::Timeout after " ++ toString timeout ++ "ms."))
  | none => .rejected (mkError ("retry()::Timeout after " ++ toString timeout ++ "ms."))

/-- The `while (shouldContinue())` loop of `retry`
(src/utilities.ts:287-330). `fn k` is the behaviour of the `k`-th
invocation of the operation (0-based) and `dur k` its duration; a poll
wait advances the clock by exactly `poll`. `tries` and `elapsed` are the
attempt counter and `Date.now() - startTime` on entry to the loop guard,
`lastErr` the last captured failure. `none` means the fuel ran out. -/
def retryGo {α : Type} (em : ErrorMatch) (timeout : Int) (poll : Nat) (disableOpt : Bool)
    (fn : Nat → FnStep α) (dur : Nat → Nat) :
    Nat → Nat → Nat → Option JsValue → Option (RetryResult α)
  | 0, _, _, _ => none
  | fuel + 1, tries, elapsed, lastErr =>
    if shouldCont disableOpt timeout tries elapsed then
      match fn tries with
      | .ok v => some ⟨.resolved v, tries + 1, elapsed + dur tries⟩
      | .thrown err =>
        match classifyMismatch em err with
        | .error hostErr => some ⟨.rejected hostErr, tries + 1, elapsed + dur tries⟩
        | .ok true => some ⟨.rejected err, tries + 1, elapsed + dur tries⟩
        | .ok false =>
          if shouldCont disableOpt timeout (tries + 1) (elapsed + dur tries) then
            retryGo em timeout poll disableOpt fn dur fuel (tries + 1)
              (elapsed + dur tries + poll) (some err)
          else if disableOpt then
            some ⟨.resolvedUndef, tries + 1, elapsed + dur tries⟩
          else
            some ⟨timeoutReject timeout (some err), tries + 1, elapsed + dur tries⟩
    else
      some ⟨timeoutReject timeout lastErr, tries, elapsed⟩

/-- Embedding of `retry` (src/utilities.ts:262-330). The effective
`poll`, `timeout` and `errorMatch` come from
`{ ...getRetryOptions(), ...options }`, but the `disable` flag actually
consulted is `options.disable` read directly off the per-call object —
exactly as the source does. -/
def retry {α : Type} (globalCfg : RetryOptions) (options : PartialRetryOptions)
    (fn : Nat → FnStep α) (dur : Nat → Nat) (fuel : Nat) : Option (RetryResult α) :=
  let eff := mergeOptions globalCfg options
  retryGo eff.errorMatch eff.timeout (pollWait eff.poll) (options.disable.getD false)
    fn dur fuel 0 0 none

/-- `retryDefaults` (src/utilities.ts:332-344). -/
def retryDefaults : RetryOptions :=
  { timeout := 5000
    poll := PollSpec.ms 200
    errorMatch := ErrorMatch.list
      ["context or browser has been closed",
       "Promise was collected",
       "Execution context was destroyed",
       "reading \x27getOwnerBrowserWindow\x27"]
    disable := false }

/-- `setRetryOptions` (src/utilities.ts:357-360):
`Object.assign(currentRetryOptions, options)`, in state-passing style. -/
def setRetryOptions (current : RetryOptions) (options : PartialRetryOptions) : RetryOptions :=
  mergeOptions current options

/-- `getRetryOptions` (src/utilities.ts:369-371): a shallow copy of the
live configuration. -/
def getRetryOptions (current : RetryOptions) : RetryOptions :=
  current

/-- `resetRetryOptions` (src/utilities.ts:384-386): the live
configuration becomes `retryDefaults` again. -/
def resetRetryOptions : RetryOptions :=
  retryDefaults

/-- A `Partial<RetryUntilTruthyOptions>` (src/utilities.ts:398-411):
`none` models an absent field. -/
structure RutPartialOptions : Type where
  timeout : Option Int := none
  poll : Option PollSpec := none
  retryPoll : Option PollSpec := none
  retryTimeout : Option Int := none
  retryErrorMatch : Option ErrorMatch := none
  retryDisable : Option Bool := none

/-- Truthiness of an `errorMatch` value: only the empty string pattern is
falsy (arrays and regular expressions are objects, hence truthy). -/
def emTruthy : ErrorMatch → Bool
  | .str s => !(s == "")
  | .list _ => true
  | .regex _ => true

/-- The `retryOptions` object built by `retryUntilTruthy`
(src/utilities.ts:456-461): each field is included only under the
condition the source spreads it with — `!== undefined` for `retryPoll`,
`retryTimeout` and `retryDisable`, but plain truthiness for
`retryErrorMatch`. -/
def rutInnerOptions (o : RutPartialOptions) : PartialRetryOptions :=
  { poll := o.retryPoll
    timeout := o.retryTimeout
    errorMatch :=
      match o.retryErrorMatch with
      | some em => if emTruthy em then some em else none
      | none => none
    disable := o.retryDisable }

/-- Result of a terminated `retryUntilTruthy` run: the outcome, how many
times the inner `retry` was invoked, how many times the wrapped operation
was invoked, and the elapsed time at settlement. -/
structure RutResult : Type where
  outcome : RetryOutcome JsValue
  iters : Nat
  calls : Nat
  elapsed : Nat

/-- The `while (Date.now() < timeoutTime)` loop of `retryUntilTruthy`
(src/utilities.ts:463-478): run the inner `retry`; return a truthy
resolved value immediately; on a falsy one (including the `undefined` that
a disabled inner `retry` resolves with) wait out the outer poll interval
and loop; a rejection of the inner `retry` propagates. `fn` is indexed by
the global count of operation invocations. -/
def rutGo (globalCfg : RetryOptions) (innerOpts : PartialRetryOptions) (timeout : Int)
    (poll : Nat) (fn : Nat → FnStep JsValue) (dur : Nat → Nat) (innerFuel : Nat) :
    Nat → Nat → Nat → Nat → Option RutResult
  | 0, _, _, _ => none
  | fuel + 1, iters, calls, elapsed =>
    if (elapsed : Int) < timeout then
      match retry globalCfg innerOpts (fun k => fn (calls + k)) (fun k => dur (calls + k)) innerFuel with
      | none => none
      | some r =>
        match r.outcome with
        | .rejected e => some ⟨.rejected e, iters + 1, calls + r.calls, elapsed + r.elapsed⟩
        | .resolved v =>
          if truthy v then
            some ⟨.resolved v, iters + 1, calls + r.calls, elapsed + r.elapsed⟩
          else
            rutGo globalCfg innerOpts timeout poll fn dur innerFuel fuel
              (iters + 1) (calls + r.calls) (elapsed + r.elapsed + poll)
        | .resolvedUndef =>
          rutGo globalCfg innerOpts timeout poll fn dur innerFuel fuel
            (iters + 1) (calls + r.calls) (elapsed + r.elapsed + poll)
    else
      some ⟨.rejected (mkError ("retryUntilTruthy::Timeout after " ++ toString timeout ++ "ms")),
        iters, calls, elapsed⟩

/-- Embedding of `retryUntilTruthy` (src/utilities.ts:444-479). The outer
`timeout` defaults to 5000 and the outer `poll` to 100 by destructuring
defaults — the global retry configuration does not feed them; it reaches
only the inner `retry` calls, through the usual merge. -/
def retryUntilTruthy (globalCfg : RetryOptions) (options : RutPartialOptions)
    (fn : Nat → FnStep JsValue) (dur : Nat → Nat) (fuel innerFuel : Nat) : Option RutResult :=
  rutGo globalCfg (rutInnerOptions options) (options.timeout.getD 5000)
    (pollWait (options.poll.getD (PollSpec.ms 100))) fn dur innerFuel fuel 0 0 0

/-- Total duration of operation invocations `base, base+1, ...,
base+n-1`. -/
def sumDur (dur : Nat → Nat) (base : Nat) : Nat → Nat
  | 0 => 0
  | n + 1 => dur base + sumDur dur (base + 1) n

/-- The Error Classifier's `matches` relation as the specification words
it: case-insensitive substring containment for a single string, the same
rule for at least one element of a list, and the pattern's own test —
with no forced lower-casing — for a regular expression. Stated from the
spec, to be compared against the condition `retry` evaluates. -/
def matchesSpec (em : ErrorMatch) (errString : String) : Bool :=
  match em with
  | .str pat => containsStr (toLowerStr errString) (toLowerStr pat)
  | .list pats => pats.any fun pat => containsStr (toLowerStr errString) (toLowerStr pat)
  | .regex t => t errString

end EPH


namespace EPH

/-! ### Helper lemmas -/

theorem listIsInfix_iff (p : List Char) :
    ∀ s : List Char, listIsInfix p s = true ↔ List.IsInfix p s := by
  intro s
  induction s with
  | nil => simp [listIsInfix, List.isEmpty_iff]
  | cons b bs ih =>
    simp [listIsInfix, Bool.or_eq_true, ih, List.isPrefixOf_iff_prefix,
      List.infix_cons_iff]

theorem containsStr_append_middle (a b c : String) :
    containsStr (a ++ b ++ c) b = true := by
  rw [containsStr, listIsInfix_iff]
  exact ⟨a.data, c.data, by simp [String.data_append]⟩

theorem containsStr_append_right (a b : String) :
    containsStr (a ++ b) b = true := by
  rw [containsStr, listIsInfix_iff]
  exact ⟨a.data, [], by simp [String.data_append]⟩

theorem containsStr_append_left_of (x y b : String) (h : containsStr x b = true) :
    containsStr (x ++ y) b = true := by
  rw [containsStr, listIsInfix_iff] at h ⊢
  obtain ⟨u, w, huw⟩ := h
  exact ⟨u, w ++ y.data, by rw [String.data_append, ← huw]; simp⟩

theorem shouldCont_zero (d : Bool) (t : Int) (e : Nat) : shouldCont d t 0 e = true := rfl

theorem retry_ok_first {α : Type} (g : RetryOptions) (o : PartialRetryOptions)
    (fn : Nat → FnStep α) (dur : Nat → Nat) (fuel : Nat) (v : α)
    (hfuel : 1 ≤ fuel) (hfn : fn 0 = FnStep.ok v) :
    retry g o fn dur fuel = some ⟨RetryOutcome.resolved v, 1, dur 0⟩ := by
  obtain ⟨f, rfl⟩ : ∃ f, fuel = f + 1 := ⟨fuel - 1, by omega⟩
  unfold retry retryGo
  simp [shouldCont, hfn]

end EPH

namespace EPH

/-! ### Claim theorems -/

/-- Claim C1 (code bug). The spec says an unset per-call `disable` flag
inherits from the live global configuration, so a global `disable = true`
should give at most one attempt and an `undefined` resolution on a
matching failure. The code instead reads `options.disable` directly: with
the global configuration disabled, per-call options leaving `disable`
unset and an operation that always throws a matching error, `retry` keeps
retrying (2 attempts here) and rejects with a timeout error instead of
resolving with `undefined`. -/
theorem retry_global_disable_ignored :
    retry { retryDefaults with disable := true } { timeout := some 300 }
      ((fun _ => FnStep.thrown (JsValue.str "Promise was collected")) : Nat → FnStep Unit)
      (fun _ => 0) 10
      = some ⟨RetryOutcome.rejected
          (mkError "retry()::Timeout after 300ms. Last throw: Promise was collected"), 2, 400⟩ := rfl

/-- Claim C2 (confirmed): when the first invocation throws an error whose
stringified form does not match the effective `errorMatch`, `retry`
rejects with that exact error after exactly one invocation, whatever the
timeout and disable settings are. -/
theorem retry_nonmatching_rejects_once {α : Type} (g : RetryOptions) (o : PartialRetryOptions)
    (fn : Nat → FnStep α) (dur : Nat → Nat) (fuel : Nat) (e : JsValue) (s : String)
    (hfuel : 1 ≤ fuel) (hfn : fn 0 = FnStep.thrown e)
    (hs : errToString e = Except.ok (some s))
    (hmm : mismatch (mergeOptions g o).errorMatch s = true) :
    retry g o fn dur fuel = some ⟨RetryOutcome.rejected e, 1, dur 0⟩ := by
  obtain ⟨f, rfl⟩ : ∃ f, fuel = f + 1 := ⟨fuel - 1, by omega⟩
  unfold retry retryGo
  simp [shouldCont, hfn, classifyMismatch, hs, hmm]

/-- Witness for C2 at a concrete input: an error `"Error: boom"` thrown
against pattern `"X"` is rethrown unchanged after one call. -/
theorem retry_nonmatching_rejects_once_witness :
    retry retryDefaults { errorMatch := some (ErrorMatch.str "X") }
      ((fun _ => FnStep.thrown (JsValue.errObj "Error" "boom")) : Nat → FnStep Unit)
      (fun _ => 0) 1
      = some ⟨RetryOutcome.rejected (JsValue.errObj "Error" "boom"), 1, 0⟩ :=
  retry_nonmatching_rejects_once retryDefaults { errorMatch := some (ErrorMatch.str "X") }
    _ _ 1 _ "Error: boom" (by decide) rfl rfl (by decide)

/-- Claim C3 (counterexample): `errToString` is not total on all inputs —
on a cyclic object it propagates the `TypeError` thrown by
`JSON.stringify`, and on `undefined` it returns `undefined` rather than a
string. -/
theorem errToString_not_total :
    errToString (JsValue.obj true JsFields.nil) = Except.error circularJsonTypeError
    ∧ errToString JsValue.undef = Except.ok none :=
  ⟨rfl, rfl⟩

/-- Claim C3 (amended): `errToString` returns a string whenever the input
is a native `Error`, a string, or any value whose `JSON.stringify`
produces a string; the remaining inputs (cyclic values, and values JSON
maps to `undefined`) are the only ones escaping the "always returns some
string" contract. -/
theorem errToString_string_cases (v : JsValue)
    (h : (∃ n m, v = JsValue.errObj n m) ∨ (∃ s, v = JsValue.str s)
        ∨ (∃ s, jsonStringify v = Except.ok (some s))) :
    ∃ s, errToString v = Except.ok (some s) := by
  cases v with
  | errObj n m => exact ⟨errorToString n m, rfl⟩
  | str s => exact ⟨s, rfl⟩
  | num n =>
    rcases h with ⟨_, _, h⟩ | ⟨_, h⟩ | ⟨s, hs⟩ <;> first | cases h | exact ⟨s, hs⟩
  | boolVal b =>
    rcases h with ⟨_, _, h⟩ | ⟨_, h⟩ | ⟨s, hs⟩ <;> first | cases h | exact ⟨s, hs⟩
  | nullVal =>
    rcases h with ⟨_, _, h⟩ | ⟨_, h⟩ | ⟨s, hs⟩ <;> first | cases h | exact ⟨s, hs⟩
  | undef =>
    rcases h with ⟨_, _, h⟩ | ⟨_, h⟩ | ⟨s, hs⟩ <;> first | cases h | exact ⟨s, hs⟩
  | fnVal =>
    rcases h with ⟨_, _, h⟩ | ⟨_, h⟩ | ⟨s, hs⟩ <;> first | cases h | exact ⟨s, hs⟩
  | obj c fs =>
    rcases h with ⟨_, _, h⟩ | ⟨_, h⟩ | ⟨s, hs⟩ <;> first | cases h | exact ⟨s, hs⟩

/-- Witness for the amended C3 at a concrete input: the number `42` is
JSON-serializable and `errToString` yields a string on it. -/
theorem errToString_string_cases_witness :
    ∃ s, errToString (JsValue.num 42) = Except.ok (some s) :=
  errToString_string_cases (JsValue.num 42) (Or.inr (Or.inr ⟨"42", rfl⟩))

/-- Claim C5 (confirmed): on any thrown value whose stringification
succeeds, the condition `retry` evaluates is exactly the negation of the
specified `matches` relation — case-insensitive substring for a string
pattern, the same rule over at least one element for a list, and the
pattern's own test (no forced lower-casing) for a regular expression. So
the error is treated as retryable iff `matchesSpec` holds. -/
theorem retry_classifier_is_matchesSpec (em : ErrorMatch) (e : JsValue) (s : String)
    (h : errToString e = Except.ok (some s)) :
    classifyMismatch em e = Except.ok (!(matchesSpec em s)) := by
  unfold classifyMismatch
  rw [h]
  cases em <;> simp [mismatch, matchesSpec]

/-- Witness for C5 at a concrete input (also exercising the
case-insensitivity of the string rule). -/
theorem retry_classifier_is_matchesSpec_witness :
    classifyMismatch (ErrorMatch.str "context has been closed")
        (JsValue.errObj "Error" "Context Has Been Closed")
      = Except.ok (!(matchesSpec (ErrorMatch.str "context has been closed")
          "Error: Context Has Been Closed"))
    ∧ matchesSpec (ErrorMatch.str "context has been closed")
        "Error: Context Has Been Closed" = true :=
  ⟨retry_classifier_is_matchesSpec (ErrorMatch.str "context has been closed")
      (JsValue.errObj "Error" "Context Has Been Closed") "Error: Context Has Been Closed" rfl,
    by decide⟩

/-- Claim C6 (confirmed): with per-call `disable = true` and an operation
throwing a matching error, `retry` resolves with `undefined` (rather than
rejecting) after exactly one invocation. -/
theorem retry_disable_suppresses {α : Type} (g : RetryOptions) (o : PartialRetryOptions)
    (fn : Nat → FnStep α) (dur : Nat → Nat) (fuel : Nat) (e : JsValue)
    (hfuel : 1 ≤ fuel) (hdis : o.disable = some true)
    (hfn : fn 0 = FnStep.thrown e)
    (hmatch : classifyMismatch (mergeOptions g o).errorMatch e = Except.ok false) :
    retry g o fn dur fuel = some ⟨RetryOutcome.resolvedUndef, 1, dur 0⟩ := by
  obtain ⟨f, rfl⟩ : ∃ f, fuel = f + 1 := ⟨fuel - 1, by omega⟩
  unfold retry retryGo
  simp [shouldCont, hfn, hmatch, hdis]

/-- Witness for C6 at a concrete input. -/
theorem retry_disable_suppresses_witness :
    retry retryDefaults { errorMatch := some (ErrorMatch.str "fails"), disable := some true }
      ((fun _ => FnStep.thrown (JsValue.str "it fails")) : Nat → FnStep Unit)
      (fun _ => 0) 1
      = some ⟨RetryOutcome.resolvedUndef, 1, 0⟩ :=
  retry_disable_suppresses retryDefaults
    { errorMatch := some (ErrorMatch.str "fails"), disable := some true }
    _ _ 1 _ (by decide) rfl rfl rfl

/-- Claim C9 (confirmed): `setRetryOptions` with a single field set (the
poll interval here) updates exactly that field of the live configuration,
and `resetRetryOptions` restores the hard-coded defaults: timeout 5000,
poll 200 ms, disable false, and the fixed default list of
transient-failure substrings. -/
theorem setRetryOptions_single_field_and_reset (cur : RetryOptions) (p : PollSpec) :
    (getRetryOptions (setRetryOptions cur { poll := some p })).poll = p
    ∧ (getRetryOptions (setRetryOptions cur { poll := some p })).timeout = cur.timeout
    ∧ (getRetryOptions (setRetryOptions cur { poll := some p })).errorMatch = cur.errorMatch
    ∧ (getRetryOptions (setRetryOptions cur { poll := some p })).disable = cur.disable
    ∧ resetRetryOptions.timeout = 5000
    ∧ resetRetryOptions.poll = PollSpec.ms 200
    ∧ resetRetryOptions.disable = false
    ∧ resetRetryOptions.errorMatch = ErrorMatch.list
        ["context or browser has been closed",
         "Promise was collected",
         "Execution context was destroyed",
         "reading \x27getOwnerBrowserWindow\x27"] :=
  ⟨rfl, rfl, rfl, rfl, rfl, rfl, rfl, rfl⟩

/-- Claim C10 (confirmed): unlike `retry`, `retryUntilTruthy` checks its
deadline before the first attempt — with a non-positive outer timeout it
rejects with its timeout error having invoked neither the inner `retry`
nor the operation (`iters = 0`, `calls = 0`). -/
theorem retryUntilTruthy_nonpositive_timeout_skips (g : RetryOptions) (o : RutPartialOptions)
    (fn : Nat → FnStep JsValue) (dur : Nat → Nat) (fuel innerFuel : Nat) (t : Int)
    (ht : o.timeout = some t) (htle : t ≤ 0) (hfuel : 1 ≤ fuel) :
    retryUntilTruthy g o fn dur fuel innerFuel
      = some ⟨RetryOutcome.rejected
          (mkError ("retryUntilTruthy::Timeout after " ++ toString t ++ "ms")), 0, 0, 0⟩ := by
  obtain ⟨f, rfl⟩ : ∃ f, fuel = f + 1 := ⟨fuel - 1, by omega⟩
  unfold retryUntilTruthy rutGo
  rw [ht]
  have hnot : ¬(((0 : Nat) : Int) < t) := by omega
  simp only [Option.getD_some, if_neg hnot]

/-- Witness for C10 at a concrete input: outer timeout 0. -/
theorem retryUntilTruthy_nonpositive_timeout_skips_witness :
    retryUntilTruthy retryDefaults { timeout := some 0 }
      (fun _ => FnStep.ok (JsValue.str "never asked")) (fun _ => 0) 5 5
      = some ⟨RetryOutcome.rejected
          (mkError ("retryUntilTruthy::Timeout after " ++ toString (0 : Int) ++ "ms")), 0, 0, 0⟩ :=
  retryUntilTruthy_nonpositive_timeout_skips retryDefaults { timeout := some 0 }
    _ _ 5 5 0 rfl (by decide) (by decide)

end EPH

namespace EPH

theorem retryGo_calls_mono {α : Type} (em : ErrorMatch) (timeout : Int) (poll : Nat)
    (d : Bool) (fn : Nat → FnStep α) (dur : Nat → Nat) :
    ∀ fuel tries elapsed lastErr r,
      retryGo em timeout poll d fn dur fuel tries elapsed lastErr = some r →
      tries ≤ r.calls := by
  intro fuel
  induction fuel with
  | zero =>
    intro tries elapsed lastErr r h
    simp [retryGo] at h
  | succ f ih =>
    intro tries elapsed lastErr r h
    unfold retryGo at h
    split at h
    · split at h
      · cases h; simp
      · split at h
        · cases h; simp
        · cases h; simp
        · split at h
          · exact le_trans (Nat.le_succ tries) (ih (tries + 1) _ _ r h)
          · split at h
            · cases h; simp
            · cases h; simp
    · cases h; simp

/-- Claim C4 (confirmed): whatever the configuration — including a zero
or negative timeout and `disable = true` — a terminating `retry` run
invokes the operation at least once: the first attempt is never skipped
by the timeout or disable checks. -/
theorem retry_first_attempt {α : Type} (g : RetryOptions) (o : PartialRetryOptions)
    (fn : Nat → FnStep α) (dur : Nat → Nat) (fuel : Nat) (r : RetryResult α)
    (h : retry g o fn dur fuel = some r) : 1 ≤ r.calls := by
  unfold retry at h
  cases fuel with
  | zero => simp [retryGo] at h
  | succ f =>
    unfold retryGo at h
    rw [if_pos (shouldCont_zero _ _ _)] at h
    split at h
    · cases h; simp
    · split at h
      · cases h; simp
      · cases h; simp
      · split at h
        · exact retryGo_calls_mono _ _ _ _ _ _ f 1 _ _ r h
        · split at h
          · cases h; simp
          · cases h; simp

/-- Witness for C4 at a concrete input: a timeout of `-5` and a disabled
global configuration still yield one invocation. -/
theorem retry_first_attempt_witness :
    1 ≤ (RetryResult.calls (α := Nat) ⟨RetryOutcome.resolved 7, 1, 0⟩) :=
  retry_first_attempt { retryDefaults with disable := true } { timeout := some (-5) }
    (fun _ => FnStep.ok 7) (fun _ => 0) 1 ⟨RetryOutcome.resolved 7, 1, 0⟩ rfl

end EPH

namespace EPH

theorem retryGo_timeout_aux {α : Type} (em : ErrorMatch) (timeout : Int) (poll : Nat)
    (fn : Nat → FnStep α) (dur : Nat → Nat) (e : Nat → JsValue) (s : Nat → String)
    (hfn : ∀ k, fn k = FnStep.thrown (e k))
    (hs : ∀ k, errToString (e k) = Except.ok (some (s k)))
    (hm : ∀ k, mismatch em (s k) = false)
    (ht : ∀ k, truthy (e k) = true) :
    ∀ fuel tries elapsed r,
      retryGo em timeout poll false fn dur fuel tries elapsed
          (if tries = 0 then none else some (e (tries - 1))) = some r →
      1 ≤ r.calls
      ∧ r.outcome = RetryOutcome.rejected
          (mkError ("retry()::Timeout after " ++ toString timeout
            ++ "ms. Last throw: " ++ s (r.calls - 1)))
      ∧ timeout ≤ (r.elapsed : Int) := by
  intro fuel
  induction fuel with
  | zero =>
    intro tries elapsed r h
    simp [retryGo] at h
  | succ f ih =>
    intro tries elapsed r h
    have hclassify : classifyMismatch em (e tries) = Except.ok false := by
      unfold classifyMismatch
      rw [hs tries]
      simp [hm tries]
    unfold retryGo at h
    by_cases hguard : shouldCont false timeout tries elapsed = true
    · rw [if_pos hguard, hfn tries] at h
      simp only [hclassify] at h
      by_cases hcont : shouldCont false timeout (tries + 1) (elapsed + dur tries) = true
      · rw [if_pos hcont] at h
        have := ih (tries + 1) (elapsed + dur tries + poll) r (by simpa using h)
        exact this
      · rw [if_neg (by simpa using hcont)] at h
        simp only [Bool.false_eq_true, if_false] at h
        cases h
        have htime : timeout ≤ ((elapsed + dur tries : Nat) : Int) := by
          unfold shouldCont at hcont
          simp at hcont
          omega
        refine ⟨by simp, ?_, htime⟩
        show timeoutReject timeout (some (e tries)) = _
        unfold timeoutReject
        simp [ht tries, hs tries]
    · rw [if_neg hguard] at h
      cases h
      match tries, hguard with
      | 0, hguard => exact absurd (shouldCont_zero false timeout elapsed) (by simpa using hguard)
      | t + 1, hguard =>
        have htime : timeout ≤ (elapsed : Int) := by
          unfold shouldCont at hguard
          simp at hguard
          omega
        refine ⟨by simp, ?_, htime⟩
        show timeoutReject timeout (some (e t)) = _
        unfold timeoutReject
        simp [ht t, hs t]

/-- Claim C7 (confirmed): with `disable` unset or false and an operation
that always throws a truthy, matching error, a terminating `retry` run
rejects only once the effective timeout is exceeded, and the rejection is
an `Error` whose message contains the configured timeout value and the
stringified form of the last captured failure. -/
theorem retry_timeout_message {α : Type} (g : RetryOptions) (o : PartialRetryOptions)
    (fn : Nat → FnStep α) (dur : Nat → Nat) (fuel : Nat) (e : Nat → JsValue)
    (s : Nat → String) (r : RetryResult α)
    (hdis : o.disable.getD false = false)
    (hfn : ∀ k, fn k = FnStep.thrown (e k))
    (hs : ∀ k, errToString (e k) = Except.ok (some (s k)))
    (hm : ∀ k, mismatch (mergeOptions g o).errorMatch (s k) = false)
    (ht : ∀ k, truthy (e k) = true)
    (hrun : retry g o fn dur fuel = some r) :
    r.outcome = RetryOutcome.rejected (mkError ("retry()::Timeout after "
        ++ toString (mergeOptions g o).timeout ++ "ms. Last throw: " ++ s (r.calls - 1)))
    ∧ (mergeOptions g o).timeout ≤ (r.elapsed : Int)
    ∧ containsStr ("retry()::Timeout after " ++ toString (mergeOptions g o).timeout
        ++ "ms. Last throw: " ++ s (r.calls - 1)) (toString (mergeOptions g o).timeout) = true
    ∧ containsStr ("retry()::Timeout after " ++ toString (mergeOptions g o).timeout
        ++ "ms. Last throw: " ++ s (r.calls - 1)) (s (r.calls - 1)) = true := by
  unfold retry at hrun
  rw [hdis] at hrun
  have haux := retryGo_timeout_aux (mergeOptions g o).errorMatch (mergeOptions g o).timeout
    (pollWait (mergeOptions g o).poll) fn dur e s hfn hs hm ht fuel 0 0 r (by simpa using hrun)
  exact ⟨haux.2.1, haux.2.2,
    containsStr_append_left_of _ _ _ (containsStr_append_left_of _ _ _ (containsStr_append_right _ _)),
    containsStr_append_right _ _⟩

/-- Witness for C7 at a concrete input: timeout 50, poll 10, matching
pattern `"fails"` — five attempts, then a rejection whose message names
the timeout and the last failure. -/
theorem retry_timeout_message_witness :
    (RetryResult.outcome (α := Unit)
        ⟨RetryOutcome.rejected (mkError "retry()::Timeout after 50ms. Last throw: it fails"), 5, 50⟩)
      = RetryOutcome.rejected (mkError ("retry()::Timeout after "
        ++ toString (mergeOptions retryDefaults
            { timeout := some 50, poll := some (PollSpec.ms 10),
              errorMatch := some (ErrorMatch.str "fails") }).timeout
        ++ "ms. Last throw: " ++ "it fails"))
    ∧ (mergeOptions retryDefaults
        { timeout := some 50, poll := some (PollSpec.ms 10),
          errorMatch := some (ErrorMatch.str "fails") }).timeout ≤ ((50 : Nat) : Int) := by
  have hm0 : mismatch (mergeOptions retryDefaults
      { timeout := some 50, poll := some (PollSpec.ms 10),
        errorMatch := some (ErrorMatch.str "fails") }).errorMatch "it fails" = false := by decide
  have haux := retry_timeout_message retryDefaults
      { timeout := some 50, poll := some (PollSpec.ms 10),
        errorMatch := some (ErrorMatch.str "fails") }
      ((fun _ => FnStep.thrown (JsValue.str "it fails")) : Nat → FnStep Unit) (fun _ => 0) 10
      (fun _ => JsValue.str "it fails") (fun _ => "it fails")
      ⟨RetryOutcome.rejected (mkError "retry()::Timeout after 50ms. Last throw: it fails"), 5, 50⟩
      rfl (fun _ => rfl) (fun _ => rfl) (fun _ => hm0) (fun _ => rfl) rfl
  exact ⟨haux.1, haux.2.1⟩

end EPH

namespace EPH

theorem rutGo_truthy_aux (g : RetryOptions) (io : PartialRetryOptions) (timeout : Int)
    (poll : Nat) (fn : Nat → FnStep JsValue) (dur : Nat → Nat) (innerFuel : Nat)
    (v : Nat → JsValue) (hinner : 1 ≤ innerFuel) :
    ∀ n calls elapsed iters fuel,
      n + 1 ≤ fuel →
      (∀ j, j ≤ n → fn (calls + j) = FnStep.ok (v (calls + j))) →
      (∀ j, j < n → truthy (v (calls + j)) = false) →
      truthy (v (calls + n)) = true →
      ((elapsed + sumDur dur calls n + n * poll : Nat) : Int) < timeout →
      rutGo g io timeout poll fn dur innerFuel fuel iters calls elapsed
        = some ⟨RetryOutcome.resolved (v (calls + n)), iters + n + 1, calls + n + 1,
            elapsed + sumDur dur calls (n + 1) + n * poll⟩ := by
  intro n
  induction n with
  | zero =>
    intro calls elapsed iters fuel hfuel hok hfalsy htruthy htime
    obtain ⟨f, rfl⟩ : ∃ f, fuel = f + 1 := ⟨fuel - 1, by omega⟩
    unfold rutGo
    simp only [sumDur, Nat.add_zero, Nat.zero_mul] at htime
    rw [if_pos htime]
    rw [retry_ok_first g io _ _ innerFuel (v (calls + 0)) hinner (hok 0 (Nat.le_refl 0))]
    simp only [htruthy, if_pos]
    simp [sumDur]
  | succ m ih =>
    intro calls elapsed iters fuel hfuel hok hfalsy htruthy htime
    obtain ⟨f, rfl⟩ : ∃ f, fuel = f + 1 := ⟨fuel - 1, by omega⟩
    unfold rutGo
    have hmono : elapsed ≤ elapsed + sumDur dur calls (m + 1) + (m + 1) * poll :=
      le_trans (Nat.le_add_right _ _) (Nat.le_add_right _ _)
    have hg : ((elapsed : Nat) : Int) < timeout :=
      lt_of_le_of_lt (by exact_mod_cast hmono) htime
    rw [if_pos hg]
    rw [retry_ok_first g io _ _ innerFuel (v (calls + 0)) hinner (hok 0 (Nat.zero_le _))]
    simp only [hfalsy 0 (Nat.succ_pos m), Bool.false_eq_true, if_false]
    have hEq : elapsed + sumDur dur calls (m + 1) + (m + 1) * poll
        = elapsed + dur (calls + 0) + poll + sumDur dur (calls + 1) m + m * poll := by
      simp only [sumDur, Nat.succ_mul, Nat.add_zero]
      ring
    rw [hEq] at htime
    have hres := ih (calls + 1) (elapsed + dur (calls + 0) + poll) (iters + 1) f
      (by omega)
      (fun j hj => by
        have h := hok (j + 1) (by omega)
        rwa [show calls + (j + 1) = calls + 1 + j by omega] at h)
      (fun j hj => by
        have h := hfalsy (j + 1) (by omega)
        rwa [show calls + (j + 1) = calls + 1 + j by omega] at h)
      (by rwa [show calls + (m + 1) = calls + 1 + m by omega] at htruthy)
      htime
    rw [hres]
    have h1 : calls + 1 + m = calls + (m + 1) := by omega
    have h2 : elapsed + dur (calls + 0) + poll + sumDur dur (calls + 1) (m + 1) + m * poll
        = elapsed + sumDur dur calls (m + 1 + 1) + (m + 1) * poll := by
      simp only [sumDur, Nat.succ_mul, Nat.add_zero]
      ring
    rw [h1, h2]
    congr 1
    simp [Nat.add_assoc, Nat.add_comm, Nat.add_left_comm]

/-- Claim C8 (confirmed): when the operation resolves to falsy values on
its first `K` invocations and to a truthy one on invocation `K + 1`, with
the `K` poll waits (and invocation durations) fitting inside the outer
timeout, `retryUntilTruthy` resolves with that first truthy value, having
invoked the inner `retry` exactly `K + 1` times and the operation exactly
`K + 1` times — falsy results are only re-polled, never returned. -/
theorem retryUntilTruthy_first_truthy (g : RetryOptions) (o : RutPartialOptions)
    (fn : Nat → FnStep JsValue) (dur : Nat → Nat) (v : Nat → JsValue) (K fuel innerFuel : Nat)
    (hok : ∀ j, j ≤ K → fn j = FnStep.ok (v j))
    (hfalsy : ∀ j, j < K → truthy (v j) = false)
    (htruthy : truthy (v K) = true)
    (hfuel : K + 1 ≤ fuel) (hinner : 1 ≤ innerFuel)
    (htime : ((sumDur dur 0 K + K * pollWait (o.poll.getD (PollSpec.ms 100)) : Nat) : Int)
        < o.timeout.getD 5000) :
    retryUntilTruthy g o fn dur fuel innerFuel
      = some ⟨RetryOutcome.resolved (v K), K + 1, K + 1,
          sumDur dur 0 (K + 1) + K * pollWait (o.poll.getD (PollSpec.ms 100))⟩ := by
  unfold retryUntilTruthy
  have haux := rutGo_truthy_aux g (rutInnerOptions o) (o.timeout.getD 5000)
    (pollWait (o.poll.getD (PollSpec.ms 100))) fn dur innerFuel v hinner K 0 0 0 fuel hfuel
    (fun j hj => by simpa using hok j hj)
    (fun j hj => by simpa using hfalsy j hj)
    (by simpa using htruthy)
    (by simpa using htime)
  simpa using haux

/-- Witness for C8 at a concrete input: `false, false, "ok"` resolves to
`"ok"` after three inner `retry` invocations and three operation calls. -/
theorem retryUntilTruthy_first_truthy_witness :
    retryUntilTruthy retryDefaults {}
      (fun k => FnStep.ok (if k < 2 then JsValue.boolVal false else JsValue.str "ok"))
      (fun _ => 0) 3 1
      = some ⟨RetryOutcome.resolved (JsValue.str "ok"), 3, 3, 200⟩ := by
  have haux := retryUntilTruthy_first_truthy retryDefaults {}
    (fun k => FnStep.ok (if k < 2 then JsValue.boolVal false else JsValue.str "ok"))
    (fun _ => 0)
    (fun k => if k < 2 then JsValue.boolVal false else JsValue.str "ok")
    2 3 1
    (fun j _ => rfl)
    (fun j hj => by interval_cases j <;> rfl)
    (by rfl)
    (by omega) (by omega)
    (by decide)
  simpa [sumDur, pollWait] using haux

end EPH
